import Mathlib

/-!
Shallow embedding of the résumé parsing core of the AI mock-interview
application (`src/utils/cv_parser.py`, class `CVParser`), together with
theorems settling the specification's claims about it.

The Python code locates logical sections of the extracted text with
regular expressions of the shape `(?i)(H1|H2|…)[:\n](.*?)(?:\n\n|\Z)`
(DOTALL) and then extracts fields from each section with further
patterns.  Every regular expression of the source is transcribed here as
an explicit matching function on `List Char` with Python's leftmost
search order and greedy/lazy backtracking order spelled out.  Character
classes `\d`, `\s`, `\w`, `[A-Z]`, `[a-z]` and `str.lower`/`str.strip`
are modelled over their ASCII meaning (the documents handled by the
application are ASCII; Python's Unicode extensions of these classes are
irrelevant to every claim considered).

The file-system boundary of `CVParser.parse_cv` (existence check and the
two format decoders, `pdfminer.extract_text` and python-docx) is
abstracted by explicit parameters: a `fileExists` flag and, for each of
the two decoders, an `Except String String` holding either the text that
the decoder produced or the message of the exception it raised.
-/

deriving instance DecidableEq for Except

namespace CvParse

/-- Python whitespace (`str.strip`, regex `\s`): space, tab, newline,
carriage return, vertical tab, form feed. -/
def isPySpace (c : Char) : Bool :=
  c = ' ' || c = '\t' || c = '\n' || c = '\r' || c = '\x0b' || c = '\x0c'

/-- ASCII decimal digit, the regex class `\d`. -/
def isAsciiDigit (c : Char) : Bool := '0' ≤ c && c ≤ '9'

/-- The regex class `[A-Z]`. -/
def isUpperAZ (c : Char) : Bool := 'A' ≤ c && c ≤ 'Z'

/-- The regex class `[a-z]`. -/
def isLowerAZ (c : Char) : Bool := 'a' ≤ c && c ≤ 'z'

/-- ASCII letter, `[A-Za-z]`. -/
def isAsciiAlpha (c : Char) : Bool := isUpperAZ c || isLowerAZ c

/-- The regex class `\w`: letters, digits, underscore. -/
def isWordChar (c : Char) : Bool := isAsciiAlpha c || isAsciiDigit c || c = '_'

/-- Python `str.strip()`: remove leading and trailing whitespace. -/
def pyStrip (cs : List Char) : List Char :=
  List.rdropWhile isPySpace (List.dropWhile isPySpace cs)

/-- `str.strip()` on `String`. -/
def pyStripS (s : String) : String := String.mk (pyStrip s.data)

/-- Python `str.lower()` (ASCII model, exactly `Char.toLower` per character). -/
def pyLowerS (s : String) : String := String.mk (s.data.map Char.toLower)

/-- `re.split` on a one-character class: worker carrying the current piece
in reverse. -/
def splitCharsGo (p : Char → Bool) : List Char → List Char → List (List Char)
  | [], acc => [acc.reverse]
  | c :: rest, acc =>
    if p c then acc.reverse :: splitCharsGo p rest []
    else splitCharsGo p rest (c :: acc)

/-- `re.split(r'[…]', text)` for a single-character separator class `p`
(no capturing groups). -/
def splitChars (p : Char → Bool) (cs : List Char) : List (List Char) :=
  splitCharsGo p cs []

/-- Case-insensitive literal test, modelling the `(?i)` flag: does the text
start with the alternative `alt` (stored lowercase)? -/
def ciStarts (alt cs : List Char) : Bool :=
  (cs.take alt.length).map Char.toLower = alt

/-- Head of the section pattern `(H1|H2|…)[:\n]` at the current position:
alternatives are tried in the order they appear in the pattern, and each
must be followed by a colon or a newline (consumed).  Returns the text
after that separator. -/
def headColon (alts : List (List Char)) (cs : List Char) : Option (List Char) :=
  alts.findSome? fun alt =>
    if ciStarts alt cs then
      match cs.drop alt.length with
      | c :: rest => if c = ':' || c = '\n' then some rest else none
      | [] => none
    else none

/-- The lazy tail `(.*?)(?:\n\n|\Z)` under DOTALL: the shortest capture
ending at a blank line (two consecutive newlines), or the whole rest of
the text if there is none. -/
def upToBlank : List Char → List Char
  | [] => []
  | '\n' :: '\n' :: _ => []
  | c :: rest => c :: upToBlank rest

/-- `re.search` of `(?i)(H1|H2|…)[:\n](.*?)(?:\n\n|\Z)` with `re.DOTALL`:
leftmost occurrence of a heading alternative followed by `:` or a
newline; returns group 2 (the section body). -/
def findSection (alts : List (List Char)) : List Char → Option (List Char)
  | [] => none
  | c :: rest =>
    match headColon alts (c :: rest) with
    | some rem => some (upToBlank rem)
    | none => findSection alts rest

/-! ### Skills  (`CVParser.extract_skills`) -/

/-- First skills pattern's heading alternatives, in pattern order. -/
def skillsAlts1 : List (List Char) :=
  ["skills".data, "technical skills".data, "core competencies".data,
   "expertise".data, "qualifications".data]

/-- Second skills pattern's heading alternatives, in pattern order. -/
def skillsAlts2 : List (List Char) :=
  ["technologies".data, "tools".data, "software".data]

/-- The skills separator class `[,•|/\n]`. -/
def isSkillSep (c : Char) : Bool :=
  c = ',' || c = '•' || c = '|' || c = '/' || c = '\n'

/-- One pass of the loop body `cleaned_skill = skill.strip(); if
cleaned_skill and len(cleaned_skill) > 1: skills_set.add(cleaned_skill)`. -/
def cleanPiece (piece : List Char) : Option String :=
  let c := pyStrip piece
  if c ≠ [] ∧ c.length > 1 then some (String.mk c) else none

/-- Raw pieces fed to the cleaning loop: both section patterns are tried
and their section bodies split on the separator class. -/
def skillPieces (text : String) : List (List Char) :=
  (([findSection skillsAlts1 text.data,
     findSection skillsAlts2 text.data]).filterMap id).flatMap
    (splitChars isSkillSep)

/-- Lexicographic comparison of character lists by code point: the order
Python's `sorted` uses on strings. -/
def charListLe : List Char → List Char → Bool
  | [], _ => true
  | _ :: _, [] => false
  | a :: as, b :: bs =>
    if a < b then true else if b < a then false else charListLe as bs

/-- Python's string order `a <= b` (code-point lexicographic), as a
relation on `String`. -/
def pyLe (a b : String) : Prop := charListLe a.data b.data = true

instance : DecidableRel pyLe := fun a b =>
  inferInstanceAs (Decidable (charListLe a.data b.data = true))

/-- Python `sorted` on strings. -/
def pySorted (l : List String) : List String :=
  List.insertionSort pyLe l

/-- `CVParser.extract_skills`: clean the pieces, deduplicate (the Python
set), and return them sorted. -/
def extractSkills (text : String) : List String :=
  pySorted ((skillPieces text).filterMap cleanPiece).dedup

/-! ### Education  (`CVParser.extract_education`) -/

structure EducationEntry where
  degree : String
  institution : String
  year : String
  deriving DecidableEq, Repr

/-- Heading alternatives of the education section pattern. -/
def eduAlts : List (List Char) :=
  ["education".data, "academic".data, "qualifications".data]

/-- Worker for `re.split(r'\n(?=[A-Z])', …)`: split at a newline followed
by an ASCII capital (no capturing groups). -/
def splitCapGo : List Char → List Char → List (List Char)
  | [], acc => [acc.reverse]
  | c :: rest, acc =>
    if c = '\n' && (match rest with | r :: _ => isUpperAZ r | [] => false) then
      acc.reverse :: splitCapGo rest []
    else splitCapGo rest (c :: acc)

/-- `re.split(r'\n(?=[A-Z])', education_text)`. -/
def splitCapEntries (cs : List Char) : List (List Char) := splitCapGo cs []

/-- The degree alternation
`(B\.?S\.?|M\.?S\.?|Ph\.?D\.?|Bachelor'?s?|Master'?s?|Doctorate|MBA|BE|ME|MTech|BTech)`
with every optional character expanded, in the regex's greedy
backtracking order, lowercased for the `(?i)` flag. -/
def degreeAlts : List (List Char) :=
  ["b.s.".data, "b.s".data, "bs.".data, "bs".data,
   "m.s.".data, "m.s".data, "ms.".data, "ms".data,
   "ph.d.".data, "ph.d".data, "phd.".data, "phd".data,
   "bachelor's".data, "bachelor'".data, "bachelors".data, "bachelor".data,
   "master's".data, "master'".data, "masters".data, "master".data,
   "doctorate".data, "mba".data, "be".data, "me".data,
   "mtech".data, "btech".data]

/-- `re.search(r"(?i)(…degrees…).*?(?=\n|$)", entry)`: leftmost position
where a degree alternative matches; the lazy `.*?(?=\n|$)` then extends
group 0 to the first newline or to the end (none of the alternatives
contains a newline). -/
def degreeSearch : List Char → Option (List Char)
  | [] => none
  | c :: rest =>
    if degreeAlts.any (fun alt => ciStarts alt (c :: rest)) then
      some ((c :: rest).takeWhile (fun x => x ≠ '\n'))
    else degreeSearch rest

/-- `(19|20)` at the two given characters. -/
def yearStart (a b : Char) : Bool :=
  (a = '1' && b = '9') || (a = '2' && b = '0')

/-- `(19|20)\d{2}` anchored at the current position. -/
def yearAt (cs : List Char) : Option (List Char) :=
  match cs with
  | a :: b :: c :: d :: _ =>
    if yearStart a b && isAsciiDigit c && isAsciiDigit d then some [a, b, c, d]
    else none
  | _ => none

/-- The greedy optional tail `(?:\s*-\s*(19|20)\d{2})?` (year range);
returns the matched characters, `[]` when the option does not match.
The whitespace runs are maximal: the characters after them (`-`, a
digit) are not whitespace, so no backtracking arises. -/
def yearRangeTail (cs : List Char) : List Char :=
  let ws1 := cs.takeWhile isPySpace
  match cs.drop ws1.length with
  | '-' :: r2 =>
    let ws2 := r2.takeWhile isPySpace
    (match yearAt (r2.drop ws2.length) with
     | some y2 => ws1 ++ '-' :: (ws2 ++ y2)
     | none => [])
  | _ => []

/-- `re.search(r'(19|20)\d{2}(?:\s*-\s*(19|20)\d{2})?', entry)`: leftmost
four-digit year, greedily extended by a range tail. -/
def yearSearch : List Char → Option (List Char)
  | [] => none
  | c :: rest =>
    match yearAt (c :: rest) with
    | some y => some (y ++ yearRangeTail rest.tail.tail.tail)
    | none => yearSearch rest

/-- `re.sub(r'(19|20)\d{2}.*$', '', entry)`.  Without MULTILINE, `$`
matches only at the end of the string or just before a terminal newline,
and `.` does not cross newlines; so the pattern matches at a year
position exactly when the text after the year has no newline at all, or
exactly one newline as its final character (which `$` then preserves). -/
def subYearToEnd : List Char → List Char
  | [] => []
  | c :: rest =>
    match yearAt (c :: rest) with
    | some _ =>
      let t := rest.drop 3
      if t.contains '\n' then
        if t.count '\n' = 1 ∧ t.getLast? = some '\n' then ['\n']
        else c :: subYearToEnd rest
      else []
    | none => c :: subYearToEnd rest

/-- Field extraction of one education entry (the loop body of
`extract_education`). -/
def parseEduEntry (entry : List Char) : EducationEntry :=
  { degree :=
      match degreeSearch entry with
      | some g => String.mk (pyStrip g)
      | none => ""
    institution := String.mk (pyStrip (subYearToEnd entry))
    year :=
      match yearSearch entry with
      | some y => String.mk y
      | none => "" }

/-- `CVParser.extract_education`. -/
def extractEducation (text : String) : List EducationEntry :=
  match findSection eduAlts text.data with
  | none => []
  | some sec =>
    (splitCapEntries sec).filterMap fun entry =>
      if pyStrip entry ≠ [] then some (parseEduEntry entry) else none

/-! ### Experience  (`CVParser.extract_experience`) -/

structure ExperienceEntry where
  company : String
  position : String
  dates : String
  description : String
  deriving DecidableEq, Repr

/-- Heading alternatives of the experience section pattern, in order. -/
def expAlts : List (List Char) :=
  ["experience".data, "work experience".data, "employment".data,
   "professional experience".data]

/-- First lookahead alternative `[A-Z][a-z]+ \d{4}` of the entry-splitting
pattern. -/
def expLook1 (cs : List Char) : Bool :=
  match cs with
  | c :: rest =>
    isUpperAZ c &&
      (let run := rest.takeWhile isLowerAZ
       !run.isEmpty &&
         match rest.drop run.length with
         | ' ' :: a :: b :: c2 :: d :: _ =>
           isAsciiDigit a && isAsciiDigit b && isAsciiDigit c2 && isAsciiDigit d
         | _ => false)
  | [] => false

/-- Second lookahead alternative `[A-Z][a-z]+ (19|20)\d{2}`; on success
returns the text captured by its group `(19|20)`. -/
def expLook2 (cs : List Char) : Option (List Char) :=
  match cs with
  | c :: rest =>
    if isUpperAZ c then
      let run := rest.takeWhile isLowerAZ
      if run.isEmpty then none
      else
        match rest.drop run.length with
        | ' ' :: a :: b :: c2 :: d :: _ =>
          if yearStart a b && isAsciiDigit c2 && isAsciiDigit d then some [a, b]
          else none
        | _ => none
    else none
  | [] => none

/-- Worker for
`re.split(r'\n(?=[A-Z][a-z]+ \d{4}|[A-Z][a-z]+ (19|20)\d{2})', …)`.
The pattern's only capturing group sits inside the lookahead, so
`re.split` interleaves the pieces with the group's value at each split:
`None` (here `none`) when the split matched through the first
alternative, the captured `19`/`20` when only the second matched.
Pieces themselves are always present (`some`). -/
def splitExpGo : List Char → List Char → List (Option (List Char))
  | [], acc => [some acc.reverse]
  | c :: rest, acc =>
    if c = '\n' ∧ (expLook1 rest ∨ (expLook2 rest).isSome) then
      some acc.reverse ::
        (if expLook1 rest then none else expLook2 rest) :: splitExpGo rest []
    else splitExpGo rest (c :: acc)

/-- The experience entry split, `None` insertions included. -/
def splitExpEntries (cs : List Char) : List (Option (List Char)) :=
  splitExpGo cs []

/-- The class `[^,\n]`. -/
def notCommaNl (c : Char) : Bool := c != ',' && c != '\n'

/-- `re.search(r'(?<=,\s)([^,\n])+', entry)`: leftmost position preceded
by a comma and one whitespace character; group 0 is the maximal run of
non-comma non-newline characters there (at least one). -/
def positionSearch : List Char → Option (List Char)
  | [] => none
  | c :: rest =>
    (if c = ',' then
       match rest with
       | s :: rest2 =>
         if isPySpace s then
           let run := rest2.takeWhile notCommaNl
           if run.isEmpty then none else some run
         else none
       | [] => none
     else none) <|> positionSearch rest

/-- The month alternation `(?:Jan|Feb|Mar|Apr|May|Jun|Jul|Aug|Sep|Oct|Nov|Dec)`,
in pattern order (case-sensitive: the dates pattern carries no `(?i)`). -/
def monthAbbrevs : List (List Char) :=
  ["Jan".data, "Feb".data, "Mar".data, "Apr".data, "May".data, "Jun".data,
   "Jul".data, "Aug".data, "Sep".data, "Oct".data, "Nov".data, "Dec".data]

/-- `(?:Jan|…|Dec)[a-z]* (?:19|20)\d{2}` anchored at the current position:
month word (abbreviation plus maximal lowercase run, which must be
maximal since a space is required next), a space, and a year. -/
def monthYearAt (cs : List Char) : Option (List Char) :=
  monthAbbrevs.findSome? fun m =>
    if m.isPrefixOf cs then
      let run := (cs.drop 3).takeWhile isLowerAZ
      match (cs.drop 3).drop run.length with
      | ' ' :: a :: b :: c :: d :: _ =>
        if yearStart a b && isAsciiDigit c && isAsciiDigit d then
          some (m ++ run ++ (' ' :: [a, b, c, d]))
        else none
      | _ => none
    else none

/-- The first alternative of the dates pattern: month-year, `\s*`, one of
`-`/`–`/`to` (tried in that order), `\s*`, month-year.  The whitespace
runs are maximal (no separator starts with a whitespace character). -/
def dateRangeAt (cs : List Char) : Option (List Char) :=
  match monthYearAt cs with
  | none => none
  | some my1 =>
    let r1 := cs.drop my1.length
    let ws1 := r1.takeWhile isPySpace
    let r2 := r1.drop ws1.length
    let sep : Option (List Char) :=
      match r2 with
      | '-' :: _ => some ['-']
      | '–' :: _ => some ['–']
      | 't' :: 'o' :: _ => some ['t', 'o']
      | _ => none
    match sep with
    | none => none
    | some sp =>
      let r3 := r2.drop sp.length
      let ws2 := r3.takeWhile isPySpace
      match monthYearAt (r3.drop ws2.length) with
      | none => none
      | some my2 => some (my1 ++ ws1 ++ sp ++ ws2 ++ my2)

/-- `re.search` of the dates pattern
`((?:months) (?:19|20)\d{2}\s*(?:-|–|to)\s*(?:months) (?:19|20)\d{2}|Present)`:
at each position, the full range alternative is tried before the literal
`Present`. -/
def datesSearch : List Char → Option (List Char)
  | [] => none
  | c :: rest =>
    dateRangeAt (c :: rest) <|>
      (if "Present".data.isPrefixOf (c :: rest) then some "Present".data
       else none) <|>
      datesSearch rest

/-- Field extraction of one experience entry (the loop body of
`extract_experience`).  `description` is
`re.sub(r'^.*\n', '', entry).strip()`: without MULTILINE the `^` matches
only at the start, so the substitution removes the first line together
with its newline when the entry has one, and nothing otherwise. -/
def parseExpEntry (e : List Char) : ExperienceEntry :=
  { company :=
      let run := e.takeWhile notCommaNl
      if run.isEmpty then "" else String.mk (pyStrip run)
    position :=
      match positionSearch e with
      | some run => String.mk (pyStrip run)
      | none => ""
    dates :=
      match datesSearch e with
      | some d => String.mk d
      | none => ""
    description :=
      String.mk (pyStrip
        (if e.contains '\n' then (e.dropWhile (fun c => c ≠ '\n')).drop 1
         else e)) }

/-- The message of the `AttributeError` raised by `entry.strip()` when
`re.split` has inserted `None` for the non-participating group. -/
def noneStripMsg : String := "AttributeError: 'NoneType' object has no attribute 'strip'"

/-- The entry loop of `extract_experience` over the split result.  Hitting
an inserted `None` raises (the Python loop calls `.strip()` on it). -/
def parseExpGo :
    List (Option (List Char)) → List ExperienceEntry →
      Except String (List ExperienceEntry)
  | [], acc => .ok acc.reverse
  | none :: _, _ => .error noneStripMsg
  | some e :: rest, acc =>
    if pyStrip e ≠ [] then parseExpGo rest (parseExpEntry e :: acc)
    else parseExpGo rest acc

/-- `CVParser.extract_experience`. -/
def extractExperience (text : String) : Except String (List ExperienceEntry) :=
  match findSection expAlts text.data with
  | none => .ok []
  | some sec => parseExpGo (splitExpEntries sec) []

/-! ### Contact information  (`CVParser.extract_contact_info`)

The four patterns scan the full normalized text.  Each is transcribed
with its backtracking order: greedy quantifiers take the maximal run and
retreat one step at a time, later choice points backtracking first. -/

structure ContactInfo where
  email : String
  phone : String
  linkedin : String
  location : String
  deriving DecidableEq, Repr

/-- Word boundary `\b` between two adjacent positions (`none` at the
string's edges). -/
def wordBnd (prev next : Option Char) : Bool :=
  (match prev with | some c => isWordChar c | none => false) !=
    (match next with | some c => isWordChar c | none => false)

/-- The email local-part class `[A-Za-z0-9._%+-]`. -/
def isLocalChar (c : Char) : Bool :=
  isAsciiAlpha c || isAsciiDigit c || c = '.' || c = '_' || c = '%' ||
    c = '+' || c = '-'

/-- The email domain class `[A-Za-z0-9.-]`. -/
def isDomChar (c : Char) : Bool :=
  isAsciiAlpha c || isAsciiDigit c || c = '.' || c = '-'

/-- The class `[A-Z|a-z]` of the email pattern (it literally contains the
bar character). -/
def isTldChar (c : Char) : Bool := isAsciiAlpha c || c = '|'

/-- `n, n-1, …, 0`: candidate lengths of a greedy quantifier, longest
first. -/
def descRange (n : Nat) : List Nat := (List.range (n + 1)).reverse

/-- `\b[A-Za-z0-9._%+-]+@[A-Za-z0-9.-]+\.[A-Z|a-z]{2,}\b` anchored at the
current position (`prev` is the character before it).  The local run and
the domain run are maximal (`@` is outside the local class, and every
candidate for the literal dot lies inside the maximal domain run, tried
rightmost first); the final `{2,}` run shrinks greedily until the
closing `\b` holds. -/
def emailAt (prev : Option Char) (cs : List Char) : Option (List Char) :=
  if !wordBnd prev cs.head? then none
  else
    let loc := cs.takeWhile isLocalChar
    if loc.isEmpty then none
    else
      match cs.drop loc.length with
      | '@' :: rest =>
        let dom := rest.takeWhile isDomChar
        ((descRange dom.length).filter
            (fun i => decide (1 ≤ i) && (dom.get? i == some '.'))).findSome?
          fun i =>
            let tl := (rest.drop (i + 1)).takeWhile isTldChar
            ((descRange tl.length).filter (fun n => decide (2 ≤ n))).findSome?
              fun n =>
                let after := (rest.drop (i + 1)).drop n
                if wordBnd (tl.get? (n - 1)) after.head? then
                  some (loc ++ '@' :: (rest.take (i + 1) ++ tl.take n))
                else none
      | _ => none

/-- Leftmost email match (`re.search`), tracking the previous character
for the leading `\b`. -/
def emailGo : Option Char → List Char → Option (List Char)
  | _, [] => none
  | prev, c :: rest => emailAt prev (c :: rest) <|> emailGo (some c) rest

def emailSearch (cs : List Char) : Option (List Char) := emailGo none cs

/-- The phone separator class `[-.\s]`. -/
def isPhoneSep (c : Char) : Bool := c = '-' || c = '.' || isPySpace c

/-- Exactly `n` digits (`\d{n}`); returns the remainder. -/
def takeDigits : Nat → List Char → Option (List Char)
  | 0, cs => some cs
  | n + 1, c :: rest => if isAsciiDigit c then takeDigits n rest else none
  | _ + 1, [] => none

/-- `[-.\s]?` (greedy: with the character first), continuation style. -/
def optPhoneSep (k : List Char → Option (List Char)) (cs : List Char) :
    Option (List Char) :=
  (match cs with
   | c :: rest => if isPhoneSep c then k rest else none
   | [] => none) <|> k cs

/-- An optional literal character (greedy), continuation style. -/
def optLit (ch : Char) (k : List Char → Option (List Char)) (cs : List Char) :
    Option (List Char) :=
  (match cs with
   | c :: rest => if c = ch then k rest else none
   | [] => none) <|> k cs

/-- `\d{1,3}` (greedy: three digits, then two, then one). -/
def digits1to3 (k : List Char → Option (List Char)) (cs : List Char) :
    Option (List Char) :=
  ((takeDigits 3 cs).bind k) <|> ((takeDigits 2 cs).bind k) <|>
    ((takeDigits 1 cs).bind k)

/-- The optional country code `(?:\+\d{1,3}[-.\s]?)?` (greedy: with the
group first). -/
def optCountryCode (k : List Char → Option (List Char)) (cs : List Char) :
    Option (List Char) :=
  (match cs with
   | '+' :: rest => digits1to3 (optPhoneSep k) rest
   | _ => none) <|> k cs

/-- First phone alternative
`(?:\+\d{1,3}[-.\s]?)?\(?(?:\d{3})\)?[-.\s]?\d{3}[-.\s]?\d{4}`;
returns the remainder after the match. -/
def phoneAAt (cs : List Char) : Option (List Char) :=
  optCountryCode (fun r1 =>
    optLit '(' (fun r2 =>
      (takeDigits 3 r2).bind fun r3 =>
        optLit ')' (fun r4 =>
          optPhoneSep (fun r5 =>
            (takeDigits 3 r5).bind fun r6 =>
              optPhoneSep (takeDigits 4) r6) r4) r3) r1) cs

/-- Second phone alternative `\d{4}[-.\s]?\d{3}[-.\s]?\d{3}`. -/
def phoneBAt (cs : List Char) : Option (List Char) :=
  (takeDigits 4 cs).bind (optPhoneSep fun r =>
    (takeDigits 3 r).bind (optPhoneSep (takeDigits 3)))

/-- The phone pattern at the current position (first alternative tried
first); returns group 0. -/
def phoneAt (cs : List Char) : Option (List Char) :=
  match phoneAAt cs <|> phoneBAt cs with
  | some rem => some (cs.take (cs.length - rem.length))
  | none => none

/-- Leftmost phone match (`re.search`). -/
def phoneSearch : List Char → Option (List Char)
  | [] => none
  | c :: rest => phoneAt (c :: rest) <|> phoneSearch rest

/-- The profile path class `[\w\-\_À-ÿ%]` of the LinkedIn pattern. -/
def isProfileChar (c : Char) : Bool :=
  isWordChar c || c = '-' || c = '_' || c = '%' ||
    (0xC0 ≤ c.toNat && c.toNat ≤ 0xFF)

/-- `linkedin\.com\/in\/[\w\-\_À-ÿ%]+\/?` (the run is maximal — `/` is
outside the class — and the trailing slash is taken greedily);
returns the remainder. -/
def liTail (cs : List Char) : Option (List Char) :=
  if "linkedin.com/in/".data.isPrefixOf cs then
    let r := cs.drop 16
    let run := r.takeWhile isProfileChar
    if run.isEmpty then none
    else
      match r.drop run.length with
      | '/' :: rest => some rest
      | r2 => some r2
  else none

/-- `(?:[\w]+\.)?` before the domain (greedy: with the subdomain first;
its `\w` run is maximal since `.` is not a word character). -/
def liHost (cs : List Char) : Option (List Char) :=
  (let run := cs.takeWhile isWordChar
   if run.isEmpty then none
   else
     match cs.drop run.length with
     | '.' :: rest => liTail rest
     | _ => none) <|> liTail cs

/-- `\/\/` then the host part. -/
def liSlashes (cs : List Char) : Option (List Char) :=
  if "//".data.isPrefixOf cs then liHost (cs.drop 2) else none

/-- `(?:https?:)?\/\/…` at the current position (scheme alternatives in
greedy order: `https:`, `http:`, nothing); returns the remainder. -/
def linkedinAt (cs : List Char) : Option (List Char) :=
  ((if "https:".data.isPrefixOf cs then some (cs.drop 6) else none).bind
      liSlashes) <|>
    ((if "http:".data.isPrefixOf cs then some (cs.drop 5) else none).bind
      liSlashes) <|>
    liSlashes cs

/-- Leftmost LinkedIn match; returns group 0. -/
def linkedinSearch : List Char → Option (List Char)
  | [] => none
  | c :: rest =>
    (match linkedinAt (c :: rest) with
     | some rem => some ((c :: rest).take ((c :: rest).length - rem.length))
     | none => none) <|> linkedinSearch rest

/-- The location class `[A-Za-z\s,]` (note that `\s` includes the
newline). -/
def isLocA (c : Char) : Bool := isAsciiAlpha c || isPySpace c || c = ','

/-- The location class `[A-Za-z\s]`. -/
def isLocB (c : Char) : Bool := isAsciiAlpha c || isPySpace c

/-- One repetition `[A-Za-z\s,]+(?:,\s*[A-Za-z\s]+)` of the location
group, continuation style.  The leading `+` is greedy: it ends exactly
at a comma of its maximal run (rightmost comma first); then `\s*` and
the trailing `+` backtrack from their maximal runs. -/
def locUnit (k : List Char → Option (List Char)) (cs : List Char) :
    Option (List Char) :=
  let run := cs.takeWhile isLocA
  ((descRange run.length).filter
      (fun i => decide (1 ≤ i) && (run.get? i == some ','))).findSome?
    fun i =>
      let r2 := cs.drop (i + 1)
      let ws := r2.takeWhile isPySpace
      (descRange ws.length).findSome? fun j =>
        let r3 := r2.drop j
        let runB := r3.takeWhile isLocB
        ((descRange runB.length).filter (fun m => decide (1 ≤ m))).findSome?
          fun m => k (r3.drop m)

/-- The trailing lookahead `(?=\n|$)` (without MULTILINE, `$` holds at
the end or before a terminal newline — subsumed by the newline case). -/
def locLook (cs : List Char) : Option (List Char) :=
  match cs with
  | [] => some []
  | '\n' :: _ => some cs
  | _ => none

/-- `(group){1,2}(?=\n|$)` after the `(?:^|\n)` anchor: greedily a second
repetition before settling for one. -/
def locAfterStart (cs : List Char) : Option (List Char) :=
  locUnit (fun r => locUnit locLook r <|> locLook r) cs

/-- Matches starting at a newline (the `\n` is part of group 0). -/
def locScan : List Char → Option (List Char)
  | [] => none
  | c :: rest =>
    (if c = '\n' then
       match locAfterStart rest with
       | some rem => some ('\n' :: rest.take (rest.length - rem.length))
       | none => none
     else none) <|> locScan rest

/-- `re.search(r'(?i)(?:^|\n)([A-Za-z\s,]+(?:,\s*[A-Za-z\s]+)){1,2}(?=\n|$)', …)`:
the `^` anchor is tried at position 0 before any newline start. -/
def locationSearch (cs : List Char) : Option (List Char) :=
  ((locAfterStart cs).map fun rem => cs.take (cs.length - rem.length)) <|>
    locScan cs

/-- `CVParser.extract_contact_info`. -/
def extractContactInfo (text : String) : ContactInfo :=
  let cs := text.data
  { email := match emailSearch cs with | some m => String.mk m | none => ""
    phone := match phoneSearch cs with | some m => String.mk m | none => ""
    linkedin :=
      match linkedinSearch cs with | some m => String.mk m | none => ""
    location :=
      match locationSearch cs with
      | some m => String.mk (pyStrip m)
      | none => "" }

/-! ### Certifications and languages  (`CVParser.extract_additional_info`) -/

structure AdditionalInfo where
  certifications : List String
  languages : List String
  deriving DecidableEq, Repr

/-- Heading alternatives of `(CERTIFICATIONS?|CERTIFICATES?)`, optional
characters expanded in greedy order. -/
def certAlts : List (List Char) :=
  ["certifications".data, "certification".data,
   "certificates".data, "certificate".data]

/-- Heading alternatives of `(LANGUAGES?)`. -/
def langAlts : List (List Char) := ["languages".data, "language".data]

/-- The certifications separator class `[\n•]`. -/
def isCertSep (c : Char) : Bool := c = '\n' || c = '•'

/-- The languages separator class `[,•\n]`. -/
def isLangSep (c : Char) : Bool := c = ',' || c = '•' || c = '\n'

/-- The comprehension `[x.strip() for x in pieces if x.strip()]`. -/
def stripNonEmpty (pieces : List (List Char)) : List String :=
  pieces.filterMap fun x =>
    let s := pyStrip x
    if s ≠ [] then some (String.mk s) else none

/-- `CVParser.extract_additional_info`. -/
def extractAdditionalInfo (text : String) : AdditionalInfo :=
  { certifications :=
      match findSection certAlts text.data with
      | some sec => stripNonEmpty (splitChars isCertSep sec)
      | none => []
    languages :=
      match findSection langAlts text.data with
      | some sec => stripNonEmpty (splitChars isLangSep sec)
      | none => [] }

/-! ### Aggregation and `parse_cv` -/

structure ParsedData where
  skills : List String
  education : List EducationEntry
  experience : List ExperienceEntry
  contact : ContactInfo
  additional : AdditionalInfo
  deriving DecidableEq, Repr

/-- `CVParser.extract_information`: build the five-field record.  The
Python dict literal evaluates the five extractor calls in order with no
local exception handling, so an exception from `extract_experience`
aborts the whole aggregation; only that extractor can raise. -/
def extractInformation (text : String) : Except String ParsedData :=
  match extractExperience text with
  | .error e => .error e
  | .ok exp =>
    .ok { skills := extractSkills text
          education := extractEducation text
          experience := exp
          contact := extractContactInfo text
          additional := extractAdditionalInfo text }

/-- `str.rfind`-style last index of a character. -/
def lastIdxOf (ch : Char) (cs : List Char) : Option Nat :=
  (cs.reverse.findIdx? (· = ch)).map fun i => cs.length - 1 - i

/-- `os.path.splitext(path)[1]` (posix): the extension starts at the last
dot after the last `/`, provided at least one earlier character of the
basename is not a dot (so names made of leading dots have no
extension). -/
def splitextExt (cs : List Char) : List Char :=
  match lastIdxOf '.' cs with
  | none => []
  | some di =>
    let fi : Nat :=
      match lastIdxOf '/' cs with
      | none => 0
      | some si => si + 1
    if fi ≤ di ∧ ((cs.drop fi).take (di - fi)).any (fun c => c != '.') then
      cs.drop di
    else []

/-- `os.path.splitext(file_path.lower())[1]` as used by `parse_cv`. -/
def extOf (s : String) : String := String.mk (splitextExt (pyLowerS s).data)

/-- The `except Exception` wrapper of `parse_cv`: every failure is
re-raised as `Exception("Error parsing CV: " + str(e))`. -/
def wrapParseError : Except String ParsedData → Except String ParsedData
  | .error e => .error ("Error parsing CV: " ++ e)
  | .ok d => .ok d

/-- The steps of `parse_cv` after a decoder was chosen: the decoder's
outcome, then the emptiness check
`if not self.extracted_text.strip(): raise ValueError(…)`, then
`extract_information`. -/
def parseDocText (r : Except String String) : Except String ParsedData :=
  match r with
  | .error e => .error e
  | .ok t =>
    if pyStripS t = "" then .error "No text could be extracted from the file"
    else extractInformation t

/-- The body of `parse_cv`'s `try` block: existence check, extension
dispatch on the lowercased path, decoding, emptiness check,
aggregation. -/
def parseCvCore (fileExists : Bool) (filePath : String)
    (pdfResult docxResult : Except String String) : Except String ParsedData :=
  if fileExists = false then .error ("File not found: " ++ filePath)
  else
    let ext := extOf filePath
    if ext = ".pdf" then parseDocText pdfResult
    else if ext = ".docx" then parseDocText docxResult
    else .error ("Unsupported file type: " ++ ext)

/-- `CVParser.parse_cv`. -/
def parseCv (fileExists : Bool) (filePath : String)
    (pdfResult docxResult : Except String String) : Except String ParsedData :=
  wrapParseError (parseCvCore fileExists filePath pdfResult docxResult)

/-! ## Properties of the string order used by the skills sort -/

theorem charListLe_total : ∀ as bs, charListLe as bs = true ∨ charListLe bs as = true
  | [], _ => Or.inl rfl
  | _ :: _, [] => Or.inr rfl
  | a :: as, b :: bs => by
    by_cases hab : a < b
    · exact Or.inl (by simp [charListLe, hab])
    · by_cases hba : b < a
      · exact Or.inr (by simp [charListLe, hba])
      · rcases charListLe_total as bs with h | h
        · exact Or.inl (by simp [charListLe, hab, hba, h])
        · exact Or.inr (by simp [charListLe, hab, hba, h])

theorem charListLe_antisymm :
    ∀ as bs, charListLe as bs = true → charListLe bs as = true → as = bs
  | [], [], _, _ => rfl
  | [], _ :: _, _, h2 => by simp [charListLe] at h2
  | _ :: _, [], h1, _ => by simp [charListLe] at h1
  | a :: as, b :: bs, h1, h2 => by
    by_cases hab : a < b
    · simp [charListLe, hab, asymm hab, lt_irrefl] at h2
    · by_cases hba : b < a
      · simp [charListLe, hab, hba] at h1
      · have he : a = b := le_antisymm (not_lt.mp hba) (not_lt.mp hab)
        simp [charListLe, hab, hba] at h1 h2
        exact by rw [he, charListLe_antisymm as bs h1 h2]

theorem charListLe_trans :
    ∀ as bs cs, charListLe as bs = true → charListLe bs cs = true →
      charListLe as cs = true
  | [], _, _, _, _ => rfl
  | _ :: _, [], _, h1, _ => by simp [charListLe] at h1
  | _ :: _, _ :: _, [], _, h2 => by simp [charListLe] at h2
  | a :: as, b :: bs, c :: cs, h1, h2 => by
    by_cases hab : a < b
    · by_cases hbc : b < c
      · simp [charListLe, lt_trans hab hbc]
      · by_cases hcb : c < b
        · simp [charListLe, hbc, hcb] at h2
        · have : b = c := le_antisymm (not_lt.mp hcb) (not_lt.mp hbc)
          simp [charListLe, this ▸ hab]
    · by_cases hba : b < a
      · simp [charListLe, hab, hba] at h1
      · have hae : a = b := le_antisymm (not_lt.mp hba) (not_lt.mp hab)
        by_cases hbc : b < c
        · simp [charListLe, hae ▸ hbc]
        · by_cases hcb : c < b
          · simp [charListLe, hbc, hcb] at h2
          · have hbe : b = c := le_antisymm (not_lt.mp hcb) (not_lt.mp hbc)
            simp [charListLe, hab, hba] at h1
            simp [charListLe, hbc, hcb] at h2
            have := charListLe_trans as bs cs h1 h2
            simp [charListLe, hae, hbe, lt_irrefl, this]

instance : IsTotal String pyLe := ⟨fun a b => charListLe_total a.data b.data⟩

instance : IsTrans String pyLe :=
  ⟨fun a b c => charListLe_trans a.data b.data c.data⟩

instance : IsAntisymm String pyLe :=
  ⟨fun a b h1 h2 => by
    cases a with
    | mk da =>
      cases b with
      | mk db => exact congrArg String.mk (charListLe_antisymm da db h1 h2)⟩

/-! ## Properties of `pyStrip` -/

theorem dropWhile_rdropWhile_self (p : Char → Bool) (m : List Char)
    (hm : m.dropWhile p = m) :
    (m.rdropWhile p).dropWhile p = m.rdropWhile p := by
  rw [List.dropWhile_eq_self_iff] at hm ⊢
  intro hl
  obtain ⟨t, ht⟩ := List.rdropWhile_prefix p m
  have hlm : 0 < m.length := by
    rw [← ht, List.length_append]
    omega
  have e3 : m[0]? = (m.rdropWhile p)[0]? := by
    conv_lhs => rw [← ht]
    exact List.getElem?_append_left hl
  have e1 : (m.rdropWhile p)[0]? = some ((m.rdropWhile p).get ⟨0, hl⟩) := by
    simp [List.getElem?_eq_getElem hl]
  have e2 : m[0]? = some (m.get ⟨0, hlm⟩) := by
    simp [List.getElem?_eq_getElem hlm]
  have h0 : (m.rdropWhile p).get ⟨0, hl⟩ = m.get ⟨0, hlm⟩ :=
    Option.some.inj (e1.symm.trans (e3.symm.trans e2))
  rw [h0]
  exact hm hlm

/-- `str.strip` is idempotent. -/
theorem pyStrip_idem (cs : List Char) : pyStrip (pyStrip cs) = pyStrip cs := by
  unfold pyStrip
  rw [dropWhile_rdropWhile_self _ _ (List.dropWhile_idempotent _ _),
    List.rdropWhile_idempotent]

/-! ## Shape of the cleaned pieces -/

theorem cleanPiece_some {piece : List Char} {s : String}
    (h : cleanPiece piece = some s) :
    s = String.mk (pyStrip piece) ∧ 2 ≤ s.length ∧ s.data = pyStrip s.data := by
  unfold cleanPiece at h
  by_cases hc : pyStrip piece ≠ [] ∧ (pyStrip piece).length > 1
  · rw [if_pos hc] at h
    obtain rfl : String.mk (pyStrip piece) = s := Option.some.inj h
    refine ⟨rfl, hc.2, ?_⟩
    exact (pyStrip_idem piece).symm
  · rw [if_neg hc] at h
    exact absurd h (by simp)

theorem stripNonEmpty_mem {ps : List (List Char)} {s : String}
    (h : s ∈ stripNonEmpty ps) : s.data = pyStrip s.data ∧ s ≠ "" := by
  unfold stripNonEmpty at h
  rw [List.mem_filterMap] at h
  obtain ⟨x, _, hx⟩ := h
  by_cases hne : pyStrip x ≠ []
  · simp only [if_pos hne] at hx
    obtain rfl : String.mk (pyStrip x) = s := Option.some.inj hx
    refine ⟨(pyStrip_idem x).symm, fun h0 => hne ?_⟩
    have := congrArg String.data h0
    exact this
  · simp only [if_neg hne] at hx
    exact absurd hx (by simp)

/-! ## Aggregation helpers -/

theorem extractInformation_err {t : String} {e : String}
    (h : extractExperience t = .error e) : extractInformation t = .error e := by
  unfold extractInformation
  rw [h]

theorem extractInformation_okk {t : String} {exp : List ExperienceEntry}
    (h : extractExperience t = .ok exp) :
    extractInformation t =
      .ok ⟨extractSkills t, extractEducation t, exp, extractContactInfo t,
           extractAdditionalInfo t⟩ := by
  unfold extractInformation
  rw [h]

/-- The specification's experience example text. -/
def acmeText : String :=
  "WORK EXPERIENCE:\nAcme Corp, Engineer\nJan 2020 to Present\nBuilt systems."

/-- The specification's education example text. -/
def eduText : String := "EDUCATION:\nMIT\nB.S. Computer Science\n2018-2022"

/-- The claim-side reading of the languages extraction for C8: split the
languages section on line breaks and bullet characters only (the class
`[\n•]`, as for certifications), then trim and drop empties. -/
def languagesClaimOnly (text : String) : List String :=
  match findSection langAlts text.data with
  | some sec => stripNonEmpty (splitChars isCertSep sec)
  | none => []

/-! ## The claims -/

/-- C1: on the specification's own example — a `WORK EXPERIENCE:` heading
followed by `Acme Corp, Engineer\nJan 2020 to Present\nBuilt systems.` —
the experience extractor does not return one structured entry: the
entry-splitting pattern `\n(?=[A-Z][a-z]+ \d{4}|[A-Z][a-z]+ (19|20)\d{2})`
carries a capturing group inside its lookahead, so `re.split` interleaves
the pieces with that group's value, which is `None` because the first
alternative subsumes the second; `entry.strip()` on that `None` raises
`AttributeError`.  The second conjunct exhibits the split result with the
inserted `none`. -/
theorem c1_experience_raises :
    extractExperience acmeText = .error noneStripMsg ∧
    splitExpEntries
        "\nAcme Corp, Engineer\nJan 2020 to Present\nBuilt systems.".data =
      [some "\nAcme Corp, Engineer".data, none,
       some "Jan 2020 to Present\nBuilt systems.".data] := by
  constructor
  · decide
  · decide

/-- C2 (counterexample): on `EDUCATION:\nMIT\nB.S. Computer Science\n2018-2022`
the education extractor does not return exactly one entry — the split at
newline-before-capital makes `MIT` an entry of its own, so there are
two. -/
theorem c2_counterexample : (extractEducation eduText).length ≠ 1 := by
  decide

/-- C2 (amended): on that text the extractor returns exactly two entries:
first `{degree := "", institution := "MIT", year := ""}` and second with
degree `B.S. Computer Science` (which is non-empty and contains `B.S.`)
and year `2018-2022`. -/
theorem c2_two_entries :
    extractEducation eduText =
      [⟨"", "MIT", ""⟩,
       ⟨"B.S. Computer Science", "B.S. Computer Science", "2018-2022"⟩] ∧
    "B.S.".data <:+: "B.S. Computer Science".data ∧
    ("B.S. Computer Science" : String) ≠ "" := by
  refine ⟨by decide, by decide, by decide⟩

/-- C3 (counterexample): it is not true that the aggregator returns a
record on every input text — on the specification's experience example it
propagates the experience extractor's exception and returns no record. -/
theorem c3_counterexample : extractInformation acmeText = .error noneStripMsg := by
  have h : extractExperience acmeText = .error noneStripMsg := by decide
  exact extractInformation_err h

/-- C3 (amended): whenever the experience extractor does not raise — in
particular whenever no experience heading is present — the aggregator
returns a record carrying all five fields of their declared shapes
(skills list, education entries, experience entries, contact record,
additional record); and on a document with no recognizable headings at
all every field is its empty-container default and the call does not
raise. -/
theorem c3_aggregator :
    (∀ (t : String) (exp : List ExperienceEntry),
       extractExperience t = .ok exp →
       extractInformation t =
         .ok ⟨extractSkills t, extractEducation t, exp, extractContactInfo t,
              extractAdditionalInfo t⟩) ∧
    extractInformation "hello world" =
      .ok ⟨[], [], [], ⟨"", "", "", ""⟩, ⟨[], []⟩⟩ := by
  constructor
  · intro t exp h
    exact extractInformation_okk h
  · decide

/-- C3 (witness): the amended statement applied to the heading-free
document `hello world`. -/
theorem c3_aggregator_witness :
    extractInformation "hello world" =
      .ok ⟨extractSkills "hello world", extractEducation "hello world", [],
           extractContactInfo "hello world",
           extractAdditionalInfo "hello world"⟩ :=
  c3_aggregator.1 "hello world" [] (by decide)

/-- Whether some skills heading family matches in the text. -/
def skillsHeadingIn (t : String) : Prop :=
  (findSection skillsAlts1 t.data).isSome = true ∨
    (findSection skillsAlts2 t.data).isSome = true

/-- C4: for every text with a skills heading the extractor's result is
sorted in Python's string order and duplicate-free, every element is a
trimmed piece of the matched section text of length at least two, the
result depends only on the collection of cleaned pieces (hence is
independent of which separators delimited the items), and the two
concrete texts of the claim both yield `["Go", "Python", "Rust"]`. -/
theorem c4_skills :
    (∀ t : String, skillsHeadingIn t →
       List.Sorted pyLe (extractSkills t) ∧ (extractSkills t).Nodup ∧
       ∀ s ∈ extractSkills t,
         2 ≤ s.length ∧ s.data = pyStrip s.data ∧
         ∃ piece ∈ skillPieces t, s = String.mk (pyStrip piece)) ∧
    (∀ t₁ t₂ : String,
       (∀ s, s ∈ (skillPieces t₁).filterMap cleanPiece ↔
             s ∈ (skillPieces t₂).filterMap cleanPiece) →
       extractSkills t₁ = extractSkills t₂) ∧
    extractSkills "SKILLS:\nPython, Go\nRust" = ["Go", "Python", "Rust"] ∧
    extractSkills "SKILLS:\nPython,Go,Rust" = ["Go", "Python", "Rust"] := by
  refine ⟨fun t _ => ⟨?_, ?_, ?_⟩, fun t₁ t₂ h => ?_, by decide, by decide⟩
  · exact List.sorted_insertionSort pyLe _
  · exact ((List.perm_insertionSort pyLe _).nodup_iff).mpr
      (List.nodup_dedup _)
  · intro s hs
    rw [extractSkills, pySorted, List.mem_insertionSort, List.mem_dedup,
      List.mem_filterMap] at hs
    obtain ⟨piece, hp, hc⟩ := hs
    obtain ⟨rfl, hlen, htrim⟩ := cleanPiece_some hc
    exact ⟨hlen, htrim, piece, hp, rfl⟩
  · apply List.eq_of_perm_of_sorted ?_ (List.sorted_insertionSort pyLe _)
      (List.sorted_insertionSort pyLe _)
    refine ((List.perm_insertionSort pyLe _).trans ?_).trans
      (List.perm_insertionSort pyLe _).symm
    refine (List.perm_ext_iff_of_nodup (List.nodup_dedup _)
      (List.nodup_dedup _)).mpr ?_
    intro a
    rw [List.mem_dedup, List.mem_dedup]
    exact h a

/-- C4 (witness): the universal parts applied to the two concrete texts
of the claim. -/
theorem c4_skills_witness :
    List.Sorted pyLe (extractSkills "SKILLS:\nPython, Go\nRust") ∧
    extractSkills "SKILLS:\nPython, Go\nRust" =
      extractSkills "SKILLS:\nPython,Go,Rust" :=
  ⟨(c4_skills.1 "SKILLS:\nPython, Go\nRust" (Or.inl (by decide))).1,
   c4_skills.2.1 "SKILLS:\nPython, Go\nRust" "SKILLS:\nPython,Go,Rust"
     (fun s => by
       rw [show (skillPieces "SKILLS:\nPython, Go\nRust").filterMap cleanPiece =
             (skillPieces "SKILLS:\nPython,Go,Rust").filterMap cleanPiece
           from by decide])⟩

/-- C5 (counterexample): a failure of the experience extractor is not
caught and replaced by an empty default — on the specification's
experience example the aggregation itself fails, and `parse_cv` surfaces
the failure as the wrapped generic error instead of returning a record. -/
theorem c5_counterexample :
    extractExperience acmeText = .error noneStripMsg ∧
    extractInformation acmeText ≠
      .ok ⟨extractSkills acmeText, extractEducation acmeText, [],
           extractContactInfo acmeText, extractAdditionalInfo acmeText⟩ ∧
    parseCv true "cv.pdf" (.ok acmeText) (.ok "") =
      .error ("Error parsing CV: " ++ noneStripMsg) := by
  refine ⟨by decide, ?_, by decide⟩
  have h : extractInformation acmeText = .error noneStripMsg :=
    extractInformation_err (by decide)
  rw [h]
  intro hk
  exact absurd hk (by simp)

/-- C5 (amended): an exception in the experience extractor is not caught
locally: it aborts `extract_information`, and `parse_cv` re-raises it
wrapped in the generic `Error parsing CV: ` message. -/
theorem c5_failure_propagates :
    (∀ (t e : String), extractExperience t = .error e →
       extractInformation t = .error e) ∧
    (∀ (path t e : String) (d : Except String String),
       extOf path = ".pdf" → pyStripS t ≠ "" →
       extractExperience t = .error e →
       parseCv true path (.ok t) d = .error ("Error parsing CV: " ++ e)) := by
  constructor
  · intro t e h
    exact extractInformation_err h
  · intro path t e d hext hne hexp
    have h1 : parseCvCore true path (.ok t) d = .error e := by
      unfold parseCvCore parseDocText
      rw [hext]
      simp [hne, extractInformation_err hexp]
    unfold parseCv
    rw [h1]
    rfl

/-- C5 (witness): the amended statement applied to the specification's
experience example. -/
theorem c5_failure_propagates_witness :
    extractInformation acmeText = .error noneStripMsg ∧
    parseCv true "cv.pdf" (.ok acmeText) (.ok "") =
      .error ("Error parsing CV: " ++ noneStripMsg) :=
  ⟨c5_failure_propagates.1 acmeText noneStripMsg (by decide),
   c5_failure_propagates.2 "cv.pdf" acmeText noneStripMsg (.ok "")
     (by decide) (by decide) (by decide)⟩

/-- C6: for both supported extensions, if the decoder's text is empty or
all-whitespace after trimming, `parse_cv` fails with the (wrapped) empty
document error and never returns a record. -/
theorem c6_empty_text :
    ∀ (path t : String) (other : Except String String),
      pyStripS t = "" →
      (extOf path = ".pdf" →
        parseCv true path (.ok t) other =
          .error "Error parsing CV: No text could be extracted from the file") ∧
      (extOf path = ".docx" →
        parseCv true path other (.ok t) =
          .error "Error parsing CV: No text could be extracted from the file") := by
  intro path t other hempty
  constructor
  · intro hext
    unfold parseCv parseCvCore parseDocText wrapParseError
    simp [hext, hempty]
  · intro hext
    unfold parseCv parseCvCore parseDocText wrapParseError
    simp [hext, hempty]

/-- C6 (witness): an all-whitespace PDF text. -/
theorem c6_empty_text_witness :
    parseCv true "cv.pdf" (.ok "  \n\t ") (.ok "ignored") =
      .error "Error parsing CV: No text could be extracted from the file" :=
  (c6_empty_text "cv.pdf" "  \n\t " (.ok "ignored") (by decide)).1 (by decide)

/-- C7: for every existing file whose (lowercased) extension is neither
`.pdf` nor `.docx`, `parse_cv` fails with the wrapped unsupported-type
error, and the result does not depend on either decoder's outcome — no
extraction is attempted. -/
theorem c7_unsupported :
    ∀ (path : String) (p1 d1 p2 d2 : Except String String),
      extOf path ≠ ".pdf" → extOf path ≠ ".docx" →
      parseCv true path p1 d1 =
        .error ("Error parsing CV: Unsupported file type: " ++ extOf path) ∧
      parseCv true path p1 d1 = parseCv true path p2 d2 := by
  intro path p1 d1 p2 d2 hpdf hdocx
  constructor
  · unfold parseCv parseCvCore wrapParseError
    simp [hpdf, hdocx, ← String.append_assoc]
  · unfold parseCv parseCvCore wrapParseError
    simp [hpdf, hdocx]

/-- C7 (witness): a `.txt` file is rejected without consulting the
decoders. -/
theorem c7_unsupported_witness :
    parseCv true "cv.txt" (.ok "some text") (.error "boom") =
      .error ("Error parsing CV: Unsupported file type: " ++ extOf "cv.txt") ∧
    parseCv true "cv.txt" (.ok "some text") (.error "boom") =
      parseCv true "cv.txt" (.error "pdf boom") (.ok "docx text") :=
  c7_unsupported "cv.txt" (.ok "some text") (.error "boom")
    (.error "pdf boom") (.ok "docx text") (by decide) (by decide)

/-- C8 (counterexample): the languages section is not split on line
breaks and bullet characters only — the code's class is `[,•\n]`, so a
comma splits too: on `LANGUAGES:\nEnglish, French` the extractor returns
`["English", "French"]`, not the claim-side `["English, French"]`. -/
theorem c8_counterexample :
    (extractAdditionalInfo "LANGUAGES:\nEnglish, French").languages =
      ["English", "French"] ∧
    languagesClaimOnly "LANGUAGES:\nEnglish, French" = ["English, French"] ∧
    (extractAdditionalInfo "LANGUAGES:\nEnglish, French").languages ≠
      languagesClaimOnly "LANGUAGES:\nEnglish, French" := by
  refine ⟨by decide, by decide, by decide⟩

/-- C8 (amended): the two sections are located independently; the
certifications section is split on line breaks and bullet characters,
the languages section on commas, bullet characters and line breaks; each
item is trimmed, empty items are dropped, and both sequences keep
first-seen order with no deduplication or sorting (witnessed by a
repeated, unsorted language and by a comma surviving inside a
certification item). -/
theorem c8_additional :
    (∀ t : String, ∀ s ∈ (extractAdditionalInfo t).certifications,
       s.data = pyStrip s.data ∧ s ≠ "") ∧
    (∀ t : String, ∀ s ∈ (extractAdditionalInfo t).languages,
       s.data = pyStrip s.data ∧ s ≠ "") ∧
    extractAdditionalInfo "CERTIFICATIONS:\nAWS Certified, Azure\nGCP" =
      ⟨["AWS Certified, Azure", "GCP"], []⟩ ∧
    extractAdditionalInfo "LANGUAGES:\nSpanish, English, Spanish" =
      ⟨[], ["Spanish", "English", "Spanish"]⟩ ∧
    extractAdditionalInfo "LANGUAGES:\nEnglish, French" =
      ⟨[], ["English", "French"]⟩ := by
  refine ⟨fun t s hs => ?_, fun t s hs => ?_, by decide, by decide, by decide⟩
  · rw [extractAdditionalInfo] at hs
    revert hs
    cases findSection certAlts t.data with
    | none => intro hs; exact absurd hs (by simp)
    | some sec => exact stripNonEmpty_mem
  · rw [extractAdditionalInfo] at hs
    revert hs
    cases findSection langAlts t.data with
    | none => intro hs; exact absurd hs (by simp)
    | some sec => exact stripNonEmpty_mem

/-- C8 (witness): the universal parts applied to concrete items. -/
theorem c8_additional_witness :
    ("AWS Certified, Azure" : String).data =
        pyStrip ("AWS Certified, Azure" : String).data ∧
      ("AWS Certified, Azure" : String) ≠ "" :=
  c8_additional.1 "CERTIFICATIONS:\nAWS Certified, Azure\nGCP"
    "AWS Certified, Azure" (by decide)

/-- C9: every failure of `parse_cv` — missing file, unsupported
extension, decoder error, empty text, or the aggregation's own
exception — reaches the caller as the one generic error whose message is
`Error parsing CV: ` followed by the original message. -/
theorem c9_generic_wrapper :
    ∀ (fe : Bool) (path : String) (p d : Except String String) (e : String),
      parseCv fe path p d = .error e →
      ∃ m, e = "Error parsing CV: " ++ m := by
  intro fe path p d e h
  unfold parseCv wrapParseError at h
  revert h
  cases parseCvCore fe path p d with
  | error e2 =>
    intro h
    exact ⟨e2, (Except.error.inj h).symm⟩
  | ok v =>
    intro h
    exact absurd h (by simp)

/-- C9 (witness): the wrapper applied to a missing file. -/
theorem c9_generic_wrapper_witness :
    ∃ m, ("Error parsing CV: File not found: nope.pdf" : String) =
      "Error parsing CV: " ++ m :=
  c9_generic_wrapper false "nope.pdf" (.ok "x") (.ok "y")
    "Error parsing CV: File not found: nope.pdf" (by decide)

/-- C10: `parse_cv` lowercases the whole path before splitting off the
extension, so any case variant of `.pdf` or `.docx` is dispatched to the
corresponding decoder exactly as the lowercase extension would be — it
is never rejected as unsupported. -/
theorem c10_case_insensitive_ext :
    (∀ (path : String) (p d : Except String String), extOf path = ".pdf" →
       parseCv true path p d = parseCv true "a.pdf" p d) ∧
    (∀ (path : String) (p d : Except String String), extOf path = ".docx" →
       parseCv true path p d = parseCv true "a.docx" p d) ∧
    extOf "cv.PDF" = ".pdf" ∧ extOf "cv.Docx" = ".docx" ∧
    extOf "cv.pDf" = ".pdf" := by
  refine ⟨fun path p d h => ?_, fun path p d h => ?_, by decide, by decide,
    by decide⟩
  · unfold parseCv parseCvCore
    rw [h]
    simp [show extOf "a.pdf" = ".pdf" from by decide]
  · unfold parseCv parseCvCore
    rw [h]
    simp [show extOf "a.docx" = ".docx" from by decide]

/-- C10 (witness): an upper-case `.PDF` file is parsed exactly as a
lower-case one. -/
theorem c10_case_insensitive_ext_witness :
    parseCv true "cv.PDF" (.ok "SKILLS:\nPython, Go") (.error "unused") =
      parseCv true "a.pdf" (.ok "SKILLS:\nPython, Go") (.error "unused") :=
  c10_case_insensitive_ext.1 "cv.PDF" (.ok "SKILLS:\nPython, Go")
    (.error "unused") (by decide)

end CvParse
